import Mathlib

/-!
Shallow embedding of the adaptive voxel path tracer core
(`src/octree/mod.rs` and `src/renderer/performance.rs`).

The `f32` arithmetic of the source is modelled over `ℚ`: every constant
appearing in the code (0.02, 0.005, 0.05, 0.95, 1.2, 0.1, 0.3, 0.5, 0.016)
is carried exactly as a rational, and the control flow (comparisons, `min`,
`max`, clamps) is translated branch for branch.  `u8` levels and depths are
modelled as `ℕ`.
-/

/-- `nalgebra::Vector3<f32>`, restricted to the three components used. -/
structure Vec3 where
  x : ℚ
  y : ℚ
  z : ℚ
deriving DecidableEq

instance : Add Vec3 := ⟨fun a b => ⟨a.x + b.x, a.y + b.y, a.z + b.z⟩⟩

theorem Vec3.add_def (a b : Vec3) : a + b = ⟨a.x + b.x, a.y + b.y, a.z + b.z⟩ := rfl

/-- `VoxelData` from `src/octree/mod.rs`. -/
structure VoxelData where
  color : Vec3
  density : ℚ
  emission : Vec3
  material_type : ℕ
deriving DecidableEq

/-- `VoxelData::empty()`. -/
def VoxelData.empty : VoxelData :=
  { color := ⟨0, 0, 0⟩, density := 0, emission := ⟨0, 0, 0⟩, material_type := 0 }

/-- `VoxelData::solid(color)`. -/
def VoxelData.solid (color : Vec3) : VoxelData :=
  { color := color, density := 1, emission := ⟨0, 0, 0⟩, material_type := 0 }

/-- `OctreeNode`: `children : Option<Box<[OctreeNode; 8]>>` is embedded as the
two constructors `leaf` (children absent) and `branch` (children present). -/
inductive OctreeNode : Type where
  | leaf (center : Vec3) (half_size : ℚ) (voxel_data : Option VoxelData) (level : ℕ)
  | branch (center : Vec3) (half_size : ℚ) (voxel_data : Option VoxelData) (level : ℕ)
      (children : Fin 8 → OctreeNode)

namespace OctreeNode

def center : OctreeNode → Vec3
  | .leaf c _ _ _ => c
  | .branch c _ _ _ _ => c

def half_size : OctreeNode → ℚ
  | .leaf _ h _ _ => h
  | .branch _ h _ _ _ => h

def voxel_data : OctreeNode → Option VoxelData
  | .leaf _ _ vd _ => vd
  | .branch _ _ vd _ _ => vd

def level : OctreeNode → ℕ
  | .leaf _ _ _ lv => lv
  | .branch _ _ _ lv _ => lv

def children : OctreeNode → Option (Fin 8 → OctreeNode)
  | .leaf _ _ _ _ => none
  | .branch _ _ _ _ ch => some ch

/-- `OctreeNode::new(center, half_size, level)`. -/
def new (center : Vec3) (half_size : ℚ) (level : ℕ) : OctreeNode :=
  .leaf center half_size none level

/-- Assignment `node.voxel_data = Some(data)`. -/
def setData : OctreeNode → VoxelData → OctreeNode
  | .leaf c h _ lv, d => .leaf c h (some d) lv
  | .branch c h _ lv ch, d => .branch c h (some d) lv ch

/-- The child-center offset used in `OctreeNode::subdivide`: component `a` is
`+new_half_size` when bit `a` of the child index is set, else `-new_half_size`. -/
def childOffset (i : ℕ) (nh : ℚ) : Vec3 :=
  ⟨if i &&& 1 ≠ 0 then nh else -nh,
   if i &&& 2 ≠ 0 then nh else -nh,
   if i &&& 4 ≠ 0 then nh else -nh⟩

/-- `OctreeNode::subdivide`: a no-op when children are present, otherwise
creates the 8 children with `new_half_size = half_size * 0.5` and
`new_level = level + 1`. -/
def subdivide : OctreeNode → OctreeNode
  | .leaf c h vd lv =>
      .branch c h vd lv (fun i => OctreeNode.new (c + childOffset i.val (h * (1/2))) (h * (1/2)) (lv + 1))
  | .branch c h vd lv ch => .branch c h vd lv ch

/-- The 3-bit child selector of `OctreeNode::get_child_index` (the same bit
formula is computed inline in `Octree::insert_recursive`); the disjoint bit
ors `index |= 1/2/4` are written as a sum. -/
def child_bits (c p : Vec3) : ℕ :=
  (if c.x < p.x then 1 else 0) + ((if c.y < p.y then 2 else 0) + (if c.z < p.z then 4 else 0))

theorem child_bits_lt_8 (c p : Vec3) : child_bits c p < 8 := by
  unfold child_bits; split <;> split <;> split <;> norm_num

/-- `OctreeNode::get_child_index(position)`. -/
def get_child_index (n : OctreeNode) (p : Vec3) : Fin 8 :=
  ⟨child_bits n.center p, child_bits_lt_8 _ _⟩

/-- Containment test of a cube given by center and half extent
(`OctreeNode::contains`, axis-wise `|p_i - c_i| <= half_size`, inclusive). -/
def box_contains (c : Vec3) (h : ℚ) (p : Vec3) : Bool :=
  decide (|p.x - c.x| ≤ h) && (decide (|p.y - c.y| ≤ h) && decide (|p.z - c.z| ≤ h))

/-- `OctreeNode::contains(position)`. -/
def contains (n : OctreeNode) (p : Vec3) : Bool :=
  box_contains n.center n.half_size p

end OctreeNode

open OctreeNode in
/-- `Octree::insert_recursive`.  `node.subdivide` is applied unconditionally;
on a node with children it is the identity, matching the source's
`if node.children.is_none() { node.subdivide(); }`. -/
def insert_recursive (node : OctreeNode) (p : Vec3) (data : VoxelData) (depth max_depth : ℕ) :
    OctreeNode :=
  if node.contains p then
    if _hstop : max_depth ≤ depth then node.setData data
    else
      match node.subdivide with
      | .leaf c h vd lv => .leaf c h vd lv
      | .branch c h vd lv ch =>
          .branch c h vd lv
            (Function.update ch ((OctreeNode.branch c h vd lv ch).get_child_index p)
              (insert_recursive (ch ((OctreeNode.branch c h vd lv ch).get_child_index p))
                p data (depth + 1) max_depth))
  else node
termination_by max_depth - depth
decreasing_by simp_wf; omega

open OctreeNode in
/-- `Octree::sample_recursive` (`self_max_depth` stands for `self.max_depth`). -/
def sample_recursive (self_max_depth : ℕ) (node : OctreeNode) (p : Vec3)
    (depth min_level : ℕ) : VoxelData :=
  if node.contains p then
    if min min_level self_max_depth ≤ depth ∧ node.voxel_data.isSome = true then
      node.voxel_data.getD VoxelData.empty
    else
      match node with
      | .leaf _ _ vd _ => vd.getD VoxelData.empty
      | .branch c h vd lv ch =>
          sample_recursive self_max_depth
            (ch ((OctreeNode.branch c h vd lv ch).get_child_index p)) p (depth + 1) min_level
  else VoxelData.empty

/-- `Octree` from `src/octree/mod.rs`. -/
structure Octree where
  root : OctreeNode
  max_depth : ℕ
  base_voxel_size : ℚ

namespace Octree

/-- `Octree::new(center, half_size, max_depth)` (`1 << max_depth` is `2 ^ max_depth`). -/
def new (center : Vec3) (half_size : ℚ) (max_depth : ℕ) : Octree :=
  { root := OctreeNode.new center half_size 0
    max_depth := max_depth
    base_voxel_size := half_size * 2 / (2 ^ max_depth : ℕ) }

/-- `Octree::insert(position, data)`. -/
def insert (t : Octree) (p : Vec3) (data : VoxelData) : Octree :=
  { t with root := insert_recursive t.root p data 0 t.max_depth }

/-- `Octree::sample(position, min_level)`. -/
def sample (t : Octree) (p : Vec3) (min_level : ℕ) : VoxelData :=
  sample_recursive t.max_depth t.root p 0 min_level

end Octree

/-- An octree obtained from a fresh root exclusively through `insert` calls. -/
def buildOctree (center : Vec3) (half_size : ℚ) (max_depth : ℕ)
    (ops : List (Vec3 × VoxelData)) : Octree :=
  ops.foldl (fun t pd => t.insert pd.1 pd.2) (Octree.new center half_size max_depth)

/-- `PerformanceController` from `src/renderer/performance.rs` (the spec's
`AdaptiveQualityController`).  The `VecDeque<f32>` history is a `List ℚ`
(front = oldest); `last_adjustment_direction : i8` is `ℤ`. -/
structure PerformanceController where
  target_framerate : ℚ
  current_voxel_size : ℚ
  frame_time_history : List ℚ
  adjustment_rate : ℚ
  history_size : ℕ
  last_adjustment_direction : ℤ
  stable_frames : ℕ
deriving DecidableEq

namespace PerformanceController

/-- `PerformanceController::new(target_framerate)`. -/
def new (target_framerate : ℚ) : PerformanceController :=
  { target_framerate := target_framerate
    current_voxel_size := 2/100
    frame_time_history := []
    adjustment_rate := 1/10
    history_size := 10
    last_adjustment_direction := 0
    stable_frames := 0 }

/-- The history after `push_back(frame_time)` followed by the conditional
`pop_front` of `update`'s first two statements. -/
def push_history (s : PerformanceController) (frame_time : ℚ) : List ℚ :=
  if s.history_size < (s.frame_time_history ++ [frame_time]).length
  then (s.frame_time_history ++ [frame_time]).tail
  else s.frame_time_history ++ [frame_time]

/-- `PerformanceController::average_frame_time`, as a function of the history
it reads. -/
def average_frame_time (hist : List ℚ) : ℚ :=
  if hist = [] then 16/1000 else hist.sum / (hist.length : ℚ)

/-- `adjustment_factor` as computed in `update` (0.5 while fewer than 10
stable frames, else the initial 1.0). -/
def adjustment_factor (s : PerformanceController) : ℚ :=
  if s.stable_frames < 10 then 1/2 else 1

/-- The new voxel size of the emergency branch:
`(current * min(target / max(1/frame_time, 10), 2)).min(0.05)`. -/
def emergency_size (s : PerformanceController) (frame_time : ℚ) : ℚ :=
  min (s.current_voxel_size * min (s.target_framerate / max (1 / frame_time) 10) 2) (5/100)

/-- The new voxel size of the below-target branch (smaller step after a
`Decrease`, the normal `scale = 1 + 0.3 * adjustment_factor` otherwise). -/
def increase_size (s : PerformanceController) : ℚ :=
  if s.last_adjustment_direction = -1
  then min (s.current_voxel_size * (1 + (1/10) * s.adjustment_factor)) (5/100)
  else min (s.current_voxel_size * (1 + (3/10) * s.adjustment_factor)) (5/100)

/-- The new voxel size of the quality-improvement branch:
`(current * (1 - 0.1 * adjustment_factor)).max(0.005)`. -/
def decrease_size (s : PerformanceController) : ℚ :=
  max (s.current_voxel_size * (1 - (1/10) * s.adjustment_factor)) (5/1000)

/-- `PerformanceController::update(frame_time)`, branch for branch:
warm-up (`history < 3`), emergency (`current_fps < target * 0.95`),
below-target (`avg_fps < target`), quality improvement
(`avg_fps > target * 1.2 && stable_frames > 15`), and the sweet spot. -/
def update (s : PerformanceController) (frame_time : ℚ) :
    PerformanceController × Option ℚ :=
  if (s.push_history frame_time).length < 3 then
    ({ s with frame_time_history := s.push_history frame_time }, none)
  else if 1 / frame_time < s.target_framerate * (95/100) then
    ({ s with frame_time_history := s.push_history frame_time,
              current_voxel_size := s.emergency_size frame_time,
              last_adjustment_direction := 1,
              stable_frames := 0 },
     some (s.emergency_size frame_time))
  else if 1 / average_frame_time (s.push_history frame_time) < s.target_framerate then
    ({ s with frame_time_history := s.push_history frame_time,
              current_voxel_size := s.increase_size,
              last_adjustment_direction := 1,
              stable_frames := 0 },
     some s.increase_size)
  else if s.target_framerate * (12/10) < 1 / average_frame_time (s.push_history frame_time)
          ∧ 15 < s.stable_frames then
    ({ s with frame_time_history := s.push_history frame_time,
              current_voxel_size := s.decrease_size,
              last_adjustment_direction := -1,
              stable_frames := 0 },
     some s.decrease_size)
  else
    ({ s with frame_time_history := s.push_history frame_time,
              stable_frames := s.stable_frames + 1 },
     none)

/-- `PerformanceController::get_current_voxel_size`. -/
def get_current_voxel_size (s : PerformanceController) : ℚ :=
  s.current_voxel_size

end PerformanceController

/-- A controller after a sequence of `update` calls (return values dropped). -/
def runUpdates (s : PerformanceController) (ts : List ℚ) : PerformanceController :=
  ts.foldl (fun a t => (a.update t).1) s

/-! ### Basic facts about the octree operations -/

namespace OctreeNode

@[simp] theorem center_setData (n : OctreeNode) (d : VoxelData) :
    (n.setData d).center = n.center := by cases n <;> rfl

@[simp] theorem half_size_setData (n : OctreeNode) (d : VoxelData) :
    (n.setData d).half_size = n.half_size := by cases n <;> rfl

@[simp] theorem voxel_data_setData (n : OctreeNode) (d : VoxelData) :
    (n.setData d).voxel_data = some d := by cases n <;> rfl

@[simp] theorem level_setData (n : OctreeNode) (d : VoxelData) :
    (n.setData d).level = n.level := by cases n <;> rfl

@[simp] theorem center_subdivide (n : OctreeNode) : n.subdivide.center = n.center := by
  cases n <;> rfl

@[simp] theorem half_size_subdivide (n : OctreeNode) : n.subdivide.half_size = n.half_size := by
  cases n <;> rfl

@[simp] theorem voxel_data_subdivide (n : OctreeNode) : n.subdivide.voxel_data = n.voxel_data := by
  cases n <;> rfl

@[simp] theorem level_subdivide (n : OctreeNode) : n.subdivide.level = n.level := by
  cases n <;> rfl

@[simp] theorem contains_setData (n : OctreeNode) (d : VoxelData) (p : Vec3) :
    (n.setData d).contains p = n.contains p := by cases n <;> rfl

theorem subdivide_ne_leaf (n : OctreeNode) (c : Vec3) (h : ℚ) (vd : Option VoxelData) (lv : ℕ) :
    n.subdivide ≠ OctreeNode.leaf c h vd lv := by
  cases n <;> simp [subdivide]

end OctreeNode

theorem insert_center_half (n : OctreeNode) (p : Vec3) (d : VoxelData) (depth maxd : ℕ) :
    (insert_recursive n p d depth maxd).center = n.center ∧
    (insert_recursive n p d depth maxd).half_size = n.half_size := by
  rw [insert_recursive]
  split_ifs with hc hstop
  · simp
  · cases n with
    | leaf c h vd lv => simp [OctreeNode.subdivide, OctreeNode.center, OctreeNode.half_size]
    | branch c h vd lv ch => simp [OctreeNode.subdivide, OctreeNode.center, OctreeNode.half_size]
  · exact ⟨rfl, rfl⟩

theorem contains_insert (n : OctreeNode) (p q : Vec3) (d : VoxelData) (depth maxd : ℕ) :
    (insert_recursive n p d depth maxd).contains q = n.contains q := by
  unfold OctreeNode.contains
  rw [(insert_center_half n p d depth maxd).1, (insert_center_half n p d depth maxd).2]

set_option linter.unreachableTactic false in
set_option linter.unusedTactic false in
theorem bits_and_one (c p : Vec3) : (OctreeNode.child_bits c p &&& 1 ≠ 0) = (c.x < p.x) := by
  unfold OctreeNode.child_bits
  rcases lt_or_ge c.x p.x with h1 | h1 <;> rcases lt_or_ge c.y p.y with h2 | h2 <;>
    rcases lt_or_ge c.z p.z with h3 | h3 <;> simp [h1, h2, h3, not_lt.2] <;> decide

theorem bits_and_two (c p : Vec3) : (OctreeNode.child_bits c p &&& 2 ≠ 0) = (c.y < p.y) := by
  unfold OctreeNode.child_bits
  rcases lt_or_ge c.x p.x with h1 | h1 <;> rcases lt_or_ge c.y p.y with h2 | h2 <;>
    rcases lt_or_ge c.z p.z with h3 | h3 <;> simp [h1, h2, h3, not_lt.2] <;> decide

theorem bits_and_four (c p : Vec3) : (OctreeNode.child_bits c p &&& 4 ≠ 0) = (c.z < p.z) := by
  unfold OctreeNode.child_bits
  rcases lt_or_ge c.x p.x with h1 | h1 <;> rcases lt_or_ge c.y p.y with h2 | h2 <;>
    rcases lt_or_ge c.z p.z with h3 | h3 <;> simp [h1, h2, h3, not_lt.2] <;> decide

/-- One axis of the containment propagation: when a point lies inside a cube, it
lies inside the half-cube selected by the sign of `cx < px`. -/
theorem axis_contains (cx px h : ℚ) (hb : |px - cx| ≤ h) :
    |px - (cx + (if cx < px then h * (1/2) else -(h * (1/2))))| ≤ h * (1/2) := by
  rw [abs_le] at hb
  rcases lt_or_ge cx px with h1 | h1
  · rw [if_pos h1, abs_le]; constructor <;> linarith
  · rw [if_neg (not_lt.2 h1), abs_le]; constructor <;> linarith

/-- A point inside a cube is inside the child cube selected by `child_bits`. -/
theorem contains_child (c : Vec3) (h : ℚ) (p : Vec3)
    (hc : OctreeNode.box_contains c h p = true) :
    OctreeNode.box_contains (c + OctreeNode.childOffset (OctreeNode.child_bits c p) (h * (1/2)))
      (h * (1/2)) p = true := by
  unfold OctreeNode.box_contains at hc ⊢
  simp only [Bool.and_eq_true, decide_eq_true_eq] at hc ⊢
  obtain ⟨hx, hy, hz⟩ := hc
  unfold OctreeNode.childOffset
  rw [Vec3.add_def]
  simp only [bits_and_one, bits_and_two, bits_and_four]
  exact ⟨axis_contains _ _ _ hx, axis_contains _ _ _ hy, axis_contains _ _ _ hz⟩

/-! ### Geometric well-formedness: every node's children sit exactly where
`subdivide` places them.  This holds for every tree the program can build
(the only way children appear is `subdivide`). -/


def WellFormed : OctreeNode → Prop
  | .leaf _ _ _ _ => True
  | .branch c h _ _ ch =>
      ∀ i : Fin 8, (ch i).center = c + OctreeNode.childOffset i.val (h * (1/2)) ∧
        (ch i).half_size = h * (1/2) ∧ WellFormed (ch i)

theorem wf_setData (n : OctreeNode) (d : VoxelData) (hw : WellFormed n) :
    WellFormed (n.setData d) := by
  cases n with
  | leaf c h vd lv => simp [WellFormed, OctreeNode.setData]
  | branch c h vd lv ch => simpa [WellFormed, OctreeNode.setData] using hw

theorem wf_subdivide (n : OctreeNode) (hw : WellFormed n) : WellFormed n.subdivide := by
  cases n with
  | leaf c h vd lv =>
      simp only [OctreeNode.subdivide, WellFormed]
      intro i
      exact ⟨rfl, rfl, by simp [OctreeNode.new, WellFormed]⟩
  | branch c h vd lv ch => simpa [OctreeNode.subdivide, WellFormed] using hw

theorem wf_insert (n : OctreeNode) (p : Vec3) (d : VoxelData) (depth maxd : ℕ)
    (hw : WellFormed n) : WellFormed (insert_recursive n p d depth maxd) := by
  induction n, p, d, depth, maxd using insert_recursive.induct with
  | case1 n p d depth maxd hc hstop =>
      rw [insert_recursive, if_pos hc, dif_pos hstop]
      exact wf_setData n d hw
  | case2 n p d depth maxd hc hstop c h vd lv hsub =>
      exact absurd hsub (OctreeNode.subdivide_ne_leaf n c h vd lv)
  | case3 n p d depth maxd hc hstop c h vd lv ch hsub ih =>
      rw [insert_recursive, if_pos hc, dif_neg hstop, hsub]
      have hws : WellFormed (OctreeNode.branch c h vd lv ch) := hsub ▸ wf_subdivide n hw
      simp only [WellFormed] at hws ⊢
      intro j
      by_cases hj : j = (OctreeNode.branch c h vd lv ch).get_child_index p
      · subst hj
        rw [Function.update_same]
        obtain ⟨hce, hhs, hwc⟩ := hws ((OctreeNode.branch c h vd lv ch).get_child_index p)
        refine ⟨?_, ?_, ih hwc⟩
        · rw [(insert_center_half _ _ _ _ _).1, hce]
        · rw [(insert_center_half _ _ _ _ _).2, hhs]
      · rw [Function.update_noteq hj]
        exact hws j
  | case4 n p d depth maxd hc =>
      rw [insert_recursive, if_neg hc]
      exact hw

theorem setData_setData (n : OctreeNode) (d1 d2 : VoxelData) :
    (n.setData d1).setData d2 = n.setData d2 := by cases n <;> rfl

theorem sample_after_insert (n : OctreeNode) (p : Vec3) (s : VoxelData) (depth maxd : ℕ)
    (hd : depth ≤ maxd) (hw : WellFormed n) (hc : n.contains p = true) :
    sample_recursive maxd (insert_recursive n p s depth maxd) p depth maxd = s := by
  induction n, p, s, depth, maxd using insert_recursive.induct with
  | case1 n p s depth maxd hc1 hstop =>
      rw [insert_recursive, if_pos hc1, dif_pos hstop]
      rw [sample_recursive.eq_def]
      simp [hc, min_self, hstop]
  | case2 n p s depth maxd hc1 hstop c h vd lv hsub =>
      exact absurd hsub (OctreeNode.subdivide_ne_leaf n c h vd lv)
  | case3 n p s depth maxd hc1 hstop c h vd lv ch hsub ih =>
      have hceq : n.center = c := by
        have := OctreeNode.center_subdivide n
        rw [hsub] at this
        exact this.symm
      have hheq : n.half_size = h := by
        have := OctreeNode.half_size_subdivide n
        rw [hsub] at this
        exact this.symm
      have hcc : OctreeNode.box_contains c h p = true := by
        unfold OctreeNode.contains at hc
        rw [hceq, hheq] at hc
        exact hc
      have hws : WellFormed (OctreeNode.branch c h vd lv ch) := hsub ▸ wf_subdivide n hw
      simp only [WellFormed] at hws
      rw [insert_recursive, if_pos hc1, dif_neg hstop, hsub]
      rw [sample_recursive.eq_def]
      have hcB : (OctreeNode.branch c h vd lv
          (Function.update ch ((OctreeNode.branch c h vd lv ch).get_child_index p)
            (insert_recursive (ch ((OctreeNode.branch c h vd lv ch).get_child_index p)) p s
              (depth + 1) maxd))).contains p = true := by
        unfold OctreeNode.contains
        exact hcc
      rw [if_pos hcB]
      rw [if_neg (by rintro ⟨h1, h2⟩; exact hstop (by simpa using h1))]
      simp only [OctreeNode.get_child_index, OctreeNode.center, Function.update_same]
      obtain ⟨hce, hhs, hwc⟩ := hws ((OctreeNode.branch c h vd lv ch).get_child_index p)
      refine ih (by omega) hwc ?_
      unfold OctreeNode.contains
      rw [hce, hhs]
      exact contains_child c h p hcc
  | case4 n p s depth maxd hc1 =>
      exact absurd hc hc1

theorem insert_idem (n : OctreeNode) (p : Vec3) (s : VoxelData) (depth maxd : ℕ) :
    insert_recursive (insert_recursive n p s depth maxd) p s depth maxd
      = insert_recursive n p s depth maxd := by
  induction n, p, s, depth, maxd using insert_recursive.induct with
  | case1 n p s depth maxd hc hstop =>
      have hr : insert_recursive n p s depth maxd = n.setData s := by
        rw [insert_recursive, if_pos hc, dif_pos hstop]
      rw [hr]
      rw [insert_recursive, if_pos (by rw [OctreeNode.contains_setData]; exact hc),
        dif_pos hstop, setData_setData]
  | case2 n p s depth maxd hc hstop c h vd lv hsub =>
      exact absurd hsub (OctreeNode.subdivide_ne_leaf n c h vd lv)
  | case3 n p s depth maxd hc hstop c h vd lv ch hsub ih =>
      have hceq : n.center = c := by
        have := OctreeNode.center_subdivide n
        rw [hsub] at this
        exact this.symm
      have hheq : n.half_size = h := by
        have := OctreeNode.half_size_subdivide n
        rw [hsub] at this
        exact this.symm
      have hcc : OctreeNode.box_contains c h p = true := by
        unfold OctreeNode.contains at hc
        rw [hceq, hheq] at hc
        exact hc
      have hr : insert_recursive n p s depth maxd
          = OctreeNode.branch c h vd lv
              (Function.update ch ((OctreeNode.branch c h vd lv ch).get_child_index p)
                (insert_recursive (ch ((OctreeNode.branch c h vd lv ch).get_child_index p)) p s
                  (depth + 1) maxd)) := by
        rw [insert_recursive, if_pos hc, dif_neg hstop, hsub]
      rw [hr]
      rw [insert_recursive]
      rw [if_pos (show (OctreeNode.branch c h vd lv _).contains p = true from hcc), dif_neg hstop]
      simp only [OctreeNode.subdivide]
      simp only [OctreeNode.get_child_index, OctreeNode.center, Function.update_same,
        Function.update_idem]
      simp only [OctreeNode.get_child_index, OctreeNode.center] at ih
      rw [ih]
  | case4 n p s depth maxd hc =>
      have hr : insert_recursive n p s depth maxd = n := by
        rw [insert_recursive, if_neg hc]
      rw [hr]
      rw [insert_recursive, if_neg hc]


/-- Voxel data appears only on nodes whose `level` equals `maxd`. -/
def dataOnlyAtMax : OctreeNode → ℕ → Prop
  | .leaf _ _ vd lv, maxd => vd.isSome = true → lv = maxd
  | .branch _ _ vd lv ch, maxd =>
      (vd.isSome = true → lv = maxd) ∧ ∀ i : Fin 8, dataOnlyAtMax (ch i) maxd

/-- Invariant of trees built by `insert` from a fresh root: a node sitting at
recursion depth `d` has `level = d`, holds data only if `d = maxd`, and has
children only if `d < maxd`. -/
def LevelInv : OctreeNode → ℕ → ℕ → Prop
  | .leaf _ _ vd lv, d, maxd => lv = d ∧ (vd.isSome = true → d = maxd)
  | .branch _ _ vd lv ch, d, maxd =>
      lv = d ∧ (vd.isSome = true → d = maxd) ∧ d < maxd ∧
        ∀ i : Fin 8, LevelInv (ch i) (d + 1) maxd

theorem LevelInv_new (c : Vec3) (h : ℚ) (lv maxd : ℕ) :
    LevelInv (OctreeNode.new c h lv) lv maxd := by
  simp [OctreeNode.new, LevelInv]

theorem LevelInv_insert (n : OctreeNode) (p : Vec3) (s : VoxelData) (depth maxd : ℕ)
    (hd : depth ≤ maxd) (hi : LevelInv n depth maxd) :
    LevelInv (insert_recursive n p s depth maxd) depth maxd := by
  induction n, p, s, depth, maxd using insert_recursive.induct with
  | case1 n p s depth maxd hc hstop =>
      rw [insert_recursive, if_pos hc, dif_pos hstop]
      have hde : depth = maxd := le_antisymm hd hstop
      cases n with
      | leaf c h vd lv =>
          simp only [LevelInv, OctreeNode.setData] at hi ⊢
          exact ⟨hi.1, fun _ => hde⟩
      | branch c h vd lv ch =>
          simp only [LevelInv] at hi
          omega
  | case2 n p s depth maxd hc hstop c h vd lv hsub =>
      exact absurd hsub (OctreeNode.subdivide_ne_leaf n c h vd lv)
  | case3 n p s depth maxd hc hstop c h vd lv ch hsub ih =>
      rw [insert_recursive, if_pos hc, dif_neg hstop, hsub]
      have hdlt : depth < maxd := by omega
      cases n with
      | leaf c0 h0 vd0 lv0 =>
          simp only [OctreeNode.subdivide] at hsub
          obtain ⟨hc0, hh0, hvd0, hlv0, hch⟩ := OctreeNode.branch.inj hsub
          simp only [LevelInv] at hi ⊢
          refine ⟨hlv0 ▸ hi.1, fun hs => (hi.2 (hvd0 ▸ hs)), hdlt, ?_⟩
          intro j
          by_cases hj : j = (OctreeNode.branch c h vd lv ch).get_child_index p
          · subst hj
            rw [Function.update_same]
            refine ih ?_ ?_
            · omega
            · have : LevelInv (ch ((OctreeNode.branch c h vd lv ch).get_child_index p)) (depth + 1) maxd := by
                rw [← hch]
                simpa [OctreeNode.new, LevelInv] using hi.1.symm ▸ rfl
              exact this
          · rw [Function.update_noteq hj]
            rw [← hch]
            simp [OctreeNode.new, LevelInv, hi.1, hlv0]
      | branch c0 h0 vd0 lv0 ch0 =>
          simp only [OctreeNode.subdivide] at hsub
          obtain ⟨hc0, hh0, hvd0, hlv0, hch⟩ := OctreeNode.branch.inj hsub
          simp only [LevelInv] at hi ⊢
          obtain ⟨hlv, hvd, hlt, hchi⟩ := hi
          refine ⟨hlv0 ▸ hlv, fun hs => hvd (hvd0 ▸ hs), hdlt, ?_⟩
          intro j
          by_cases hj : j = (OctreeNode.branch c h vd lv ch).get_child_index p
          · subst hj
            rw [Function.update_same]
            exact ih (by omega) (hch ▸ hchi _)
          · rw [Function.update_noteq hj]
            exact hch ▸ hchi j
  | case4 n p s depth maxd hc =>
      rw [insert_recursive, if_neg hc]
      exact hi

theorem LevelInv_dataOnly (n : OctreeNode) : ∀ (d maxd : ℕ),
    LevelInv n d maxd → dataOnlyAtMax n maxd := by
  induction n with
  | leaf c h vd lv =>
      intro d maxd hi
      simp only [LevelInv] at hi
      simp only [dataOnlyAtMax]
      intro hs
      rw [hi.1]
      exact hi.2 hs
  | branch c h vd lv ch ih =>
      intro d maxd hi
      simp only [LevelInv] at hi
      obtain ⟨hlv, hvd, _, hchi⟩ := hi
      exact ⟨fun hs => hlv ▸ hvd hs, fun i => ih i _ _ (hchi i)⟩

theorem sample_level_irrel (n : OctreeNode) : ∀ (d maxd : ℕ),
    LevelInv n d maxd →
    ∀ (p : Vec3) (L1 L2 : ℕ),
      sample_recursive maxd n p d L1 = sample_recursive maxd n p d L2 := by
  induction n with
  | leaf c h vd lv =>
      intro d maxd hi p L1 L2
      rw [sample_recursive.eq_def, sample_recursive.eq_def]
      simp only [OctreeNode.voxel_data]
      split_ifs <;> rfl
  | branch c h vd lv ch ih =>
      intro d maxd hi p L1 L2
      simp only [LevelInv] at hi
      obtain ⟨hlv, hvd, hlt, hchi⟩ := hi
      have hvdn : vd.isSome = false := by
        cases hvs : vd.isSome
        · rfl
        · exact absurd (hvd hvs) (by omega)
      rw [sample_recursive.eq_def, sample_recursive.eq_def]
      simp only [OctreeNode.voxel_data, hvdn, Bool.false_eq_true, and_false, if_false]
      split_ifs with hcn
      · exact ih _ _ _ (hchi _) p L1 L2
      · rfl

theorem buildOctree_inv (c : Vec3) (h : ℚ) (maxd : ℕ) (ops : List (Vec3 × VoxelData)) :
    (buildOctree c h maxd ops).max_depth = maxd ∧
    LevelInv (buildOctree c h maxd ops).root 0 maxd := by
  suffices hgen : ∀ (l : List (Vec3 × VoxelData)) (t : Octree), t.max_depth = maxd →
      LevelInv t.root 0 maxd →
      (l.foldl (fun a pd => a.insert pd.1 pd.2) t).max_depth = maxd ∧
      LevelInv (l.foldl (fun a pd => a.insert pd.1 pd.2) t).root 0 maxd by
    exact hgen ops (Octree.new c h maxd) rfl (LevelInv_new c h 0 maxd)
  intro l
  induction l with
  | nil => intro t h1 h2; exact ⟨h1, h2⟩
  | cons pd l ihl =>
      intro t h1 h2
      refine ihl (t.insert pd.1 pd.2) h1 ?_
      show LevelInv (insert_recursive t.root pd.1 pd.2 0 t.max_depth) 0 maxd
      rw [h1]
      exact LevelInv_insert t.root pd.1 pd.2 0 maxd (Nat.zero_le _) h2


/-! Claim theorems for the octree. -/

/-- C2 counterexample: on a freshly constructed index the position `(0,0,0)`
lies inside the root's bounds, yet `sample` returns the empty sample — the
claimed "empty iff outside" equivalence fails in the inside-to-empty
direction. -/
theorem sample_empty_iff_outside_cex :
    (Octree.new ⟨0, 0, 0⟩ 1 2).root.contains ⟨0, 0, 0⟩ = true ∧
    (Octree.new ⟨0, 0, 0⟩ 1 2).sample ⟨0, 0, 0⟩ 0 = VoxelData.empty :=
  ⟨by with_unfolding_all rfl, by with_unfolding_all rfl⟩

/-- C2 (amended): for every index and every level, `sample` returns the empty
sample whenever the position lies outside the root's cube bounds (the converse
does not hold: in-bounds positions with no stored data also sample empty). -/
theorem sample_empty_outside (t : Octree) (p : Vec3) (L : ℕ)
    (h : t.root.contains p = false) : t.sample p L = VoxelData.empty := by
  unfold Octree.sample
  rw [sample_recursive.eq_def]
  rw [h]
  simp

/-- Witness for `sample_empty_outside` at a concrete out-of-bounds position. -/
theorem sample_empty_outside_witness :
    (Octree.new ⟨0, 0, 0⟩ 1 2).root.contains ⟨3, 0, 0⟩ = false ∧
    (Octree.new ⟨0, 0, 0⟩ 1 2).sample ⟨3, 0, 0⟩ 5 = VoxelData.empty :=
  ⟨by with_unfolding_all rfl,
   sample_empty_outside (Octree.new ⟨0, 0, 0⟩ 1 2) ⟨3, 0, 0⟩ 5 (by with_unfolding_all rfl)⟩

/-- C9: inserting at a position outside the root's bounds leaves the whole
index unchanged (no subdivision, no stored sample, no error). -/
theorem insert_out_of_bounds_noop (t : Octree) (p : Vec3) (d : VoxelData)
    (h : t.root.contains p = false) : t.insert p d = t := by
  unfold Octree.insert
  rw [insert_recursive, h]
  simp

/-- Witness for `insert_out_of_bounds_noop`. -/
theorem insert_out_of_bounds_noop_witness :
    (Octree.new ⟨0, 0, 0⟩ 1 2).root.contains ⟨0, 5, 0⟩ = false ∧
    (Octree.new ⟨0, 0, 0⟩ 1 2).insert ⟨0, 5, 0⟩ (VoxelData.solid ⟨1, 1, 1⟩)
      = Octree.new ⟨0, 0, 0⟩ 1 2 :=
  ⟨by with_unfolding_all rfl,
   insert_out_of_bounds_noop (Octree.new ⟨0, 0, 0⟩ 1 2) ⟨0, 5, 0⟩ (VoxelData.solid ⟨1, 1, 1⟩)
     (by with_unfolding_all rfl)⟩

/-- C7: `subdivide` on a node without children produces exactly 8 children,
each with half the parent's half-extent, level `parent + 1`, fresh (childless,
sample-free), centered at the parent's center offset by `±halfExtent/2` per
axis with bit 0 = X sign, bit 1 = Y sign, bit 2 = Z sign; `subdivide` on an
already subdivided node is a no-op; and `insert_recursive` never removes an
existing children array. -/
theorem subdivide_spec (n : OctreeNode) :
    (n.children = none →
      ∃ ch : Fin 8 → OctreeNode,
        n.subdivide.children = some ch ∧
        n.subdivide.center = n.center ∧
        n.subdivide.half_size = n.half_size ∧
        ∀ i : Fin 8,
          (ch i).half_size = n.half_size * (1/2) ∧
          (ch i).level = n.level + 1 ∧
          (ch i).children = none ∧
          (ch i).voxel_data = none ∧
          (ch i).center.x = n.center.x +
            (if i.val &&& 1 ≠ 0 then n.half_size * (1/2) else -(n.half_size * (1/2))) ∧
          (ch i).center.y = n.center.y +
            (if i.val &&& 2 ≠ 0 then n.half_size * (1/2) else -(n.half_size * (1/2))) ∧
          (ch i).center.z = n.center.z +
            (if i.val &&& 4 ≠ 0 then n.half_size * (1/2) else -(n.half_size * (1/2)))) ∧
    (n.children.isSome = true → n.subdivide = n) ∧
    (∀ (p : Vec3) (d : VoxelData) (depth maxd : ℕ),
      n.children.isSome = true →
      (insert_recursive n p d depth maxd).children.isSome = true) := by
  refine ⟨?_, ?_, ?_⟩
  · intro hch
    cases n with
    | branch c h vd lv ch => simp [OctreeNode.children] at hch
    | leaf c h vd lv =>
        refine ⟨_, rfl, rfl, rfl, ?_⟩
        intro i
        refine ⟨rfl, rfl, rfl, rfl, ?_, ?_, ?_⟩ <;>
          simp [OctreeNode.new, OctreeNode.childOffset, Vec3.add_def, OctreeNode.center,
            OctreeNode.half_size, OctreeNode.level]
  · intro hch
    cases n with
    | leaf c h vd lv => simp [OctreeNode.children] at hch
    | branch c h vd lv ch => rfl
  · intro p d depth maxd hch
    cases n with
    | leaf c h vd lv => simp [OctreeNode.children] at hch
    | branch c h vd lv ch =>
        rw [insert_recursive]
        split_ifs with hc hstop
        · rfl
        · rfl
        · exact hch

/-- Witness for `subdivide_spec` at a concrete leaf and its subdivided branch. -/
theorem subdivide_spec_witness :
    ((OctreeNode.new ⟨0, 0, 0⟩ 1 0).subdivide.subdivide
      = (OctreeNode.new ⟨0, 0, 0⟩ 1 0).subdivide) ∧
    ((insert_recursive (OctreeNode.new ⟨0, 0, 0⟩ 1 0).subdivide ⟨0, 0, 0⟩ VoxelData.empty 0 1).children.isSome = true) ∧
    (∃ ch : Fin 8 → OctreeNode, (OctreeNode.new ⟨0, 0, 0⟩ 1 0).subdivide.children = some ch) :=
  ⟨(subdivide_spec ((OctreeNode.new ⟨0, 0, 0⟩ 1 0).subdivide)).2.1 rfl,
   (subdivide_spec ((OctreeNode.new ⟨0, 0, 0⟩ 1 0).subdivide)).2.2 ⟨0, 0, 0⟩ VoxelData.empty 0 1 rfl,
   match (subdivide_spec (OctreeNode.new ⟨0, 0, 0⟩ 1 0)).1 rfl with
   | ⟨ch, hch, _⟩ => ⟨ch, hch⟩⟩

/-- C6: on a well-formed index, inserting the same pair twice equals inserting
it once, and after inserting `(p, s1)` then `(p, s2)` at an in-bounds `p`,
sampling at `maxDepth` returns `s2` (last write wins). -/
theorem insert_insert_sample (t : Octree) (p : Vec3) (s1 s2 : VoxelData)
    (hwf : WellFormed t.root) (hc : t.root.contains p = true) :
    ((t.insert p s1).insert p s1 = t.insert p s1) ∧
    (((t.insert p s1).insert p s2).sample p t.max_depth = s2) := by
  constructor
  · show Octree.mk (insert_recursive (insert_recursive t.root p s1 0 t.max_depth) p s1 0
        t.max_depth) t.max_depth t.base_voxel_size
      = Octree.mk (insert_recursive t.root p s1 0 t.max_depth) t.max_depth t.base_voxel_size
    rw [insert_idem]
  · have hwf1 : WellFormed (insert_recursive t.root p s1 0 t.max_depth) :=
      wf_insert t.root p s1 0 t.max_depth hwf
    have hc1 : (insert_recursive t.root p s1 0 t.max_depth).contains p = true := by
      rw [contains_insert]; exact hc
    show sample_recursive t.max_depth
        (insert_recursive (insert_recursive t.root p s1 0 t.max_depth) p s2 0 t.max_depth)
        p 0 t.max_depth = s2
    exact sample_after_insert _ p s2 0 t.max_depth (Nat.zero_le _) hwf1 hc1

/-- Witness for `insert_insert_sample` on a small concrete index. -/
theorem insert_insert_sample_witness :
    (((Octree.new ⟨0, 0, 0⟩ 1 1).insert ⟨0, 0, 0⟩ (VoxelData.solid ⟨1, 0, 0⟩)).insert ⟨0, 0, 0⟩
        (VoxelData.solid ⟨1, 0, 0⟩)
      = (Octree.new ⟨0, 0, 0⟩ 1 1).insert ⟨0, 0, 0⟩ (VoxelData.solid ⟨1, 0, 0⟩)) ∧
    ((((Octree.new ⟨0, 0, 0⟩ 1 1).insert ⟨0, 0, 0⟩ (VoxelData.solid ⟨1, 0, 0⟩)).insert ⟨0, 0, 0⟩
        (VoxelData.solid ⟨0, 1, 0⟩)).sample ⟨0, 0, 0⟩ (Octree.new ⟨0, 0, 0⟩ 1 1).max_depth
      = VoxelData.solid ⟨0, 1, 0⟩) :=
  insert_insert_sample (Octree.new ⟨0, 0, 0⟩ 1 1) ⟨0, 0, 0⟩ (VoxelData.solid ⟨1, 0, 0⟩)
    (VoxelData.solid ⟨0, 1, 0⟩) (by simp [Octree.new, OctreeNode.new, WellFormed])
    (by with_unfolding_all rfl)

/-- C5: in an octree built from a fresh root exclusively through `insert`,
voxel data sits only on nodes whose level equals `maxDepth`, and consequently
`sample` is independent of the requested level — the coarse early return never
resolves to different data. -/
theorem build_data_only_at_max (c : Vec3) (h : ℚ) (maxd : ℕ)
    (ops : List (Vec3 × VoxelData)) :
    dataOnlyAtMax (buildOctree c h maxd ops).root maxd ∧
    ∀ (p : Vec3) (L1 L2 : ℕ),
      (buildOctree c h maxd ops).sample p L1 = (buildOctree c h maxd ops).sample p L2 := by
  obtain ⟨hmd, hinv⟩ := buildOctree_inv c h maxd ops
  refine ⟨LevelInv_dataOnly _ 0 maxd hinv, ?_⟩
  intro p L1 L2
  unfold Octree.sample
  rw [hmd]
  exact sample_level_irrel _ 0 maxd hinv p L1 L2


/-- C8: while the frame-time window holds fewer than 3 samples after the push
(i.e. fewer than 2 before the call) `update` returns no change, on any state;
and in the spec's scenario (target 60, three frames of 0.02 s) the first two
calls return `none` while the third call produces a decision
(`some 0.024`). -/
theorem warmup_then_decision :
    (∀ (s : PerformanceController) (t : ℚ),
      s.frame_time_history.length < 2 → (s.update t).2 = none) ∧
    ((PerformanceController.new 60).update (1/50)).2 = none ∧
    (((PerformanceController.new 60).update (1/50)).1.update (1/50)).2 = none ∧
    ((((PerformanceController.new 60).update (1/50)).1.update (1/50)).1.update (1/50)).2
      = some (3/125) := by
  refine ⟨?_, ?_, ?_, ?_⟩
  · intro s t hlen
    have hpl : (s.push_history t).length < 3 := by
      unfold PerformanceController.push_history
      split <;> simp <;> omega
    unfold PerformanceController.update
    rw [if_pos hpl]
  · with_unfolding_all rfl
  · with_unfolding_all rfl
  · with_unfolding_all rfl

/-- Witness for the universally quantified part of `warmup_then_decision`. -/
theorem warmup_then_decision_witness :
    ((PerformanceController.new 30).update 1).2 = none :=
  warmup_then_decision.1 (PerformanceController.new 30) 1 (by decide)

/-- C10: whenever `update` returns `none` (warm-up or sweet spot), the step
size, adjustment direction, target frame rate, adjustment rate and history
capacity are all left unchanged — only the window and the stable-frame counter
may move. -/
theorem update_none_no_change (s : PerformanceController) (t : ℚ)
    (h : (s.update t).2 = none) :
    (s.update t).1.current_voxel_size = s.current_voxel_size ∧
    (s.update t).1.last_adjustment_direction = s.last_adjustment_direction ∧
    (s.update t).1.target_framerate = s.target_framerate ∧
    (s.update t).1.adjustment_rate = s.adjustment_rate ∧
    (s.update t).1.history_size = s.history_size := by
  unfold PerformanceController.update at h ⊢
  split_ifs at h ⊢ with h1 h2 h3 h4 <;>
    first
      | exact ⟨rfl, rfl, rfl, rfl, rfl⟩
      | exact absurd h (by simp)

/-- Witness for `update_none_no_change` on a warm-up call. -/
theorem update_none_no_change_witness :
    ((PerformanceController.new 60).update (1/60)).1.current_voxel_size
        = (PerformanceController.new 60).current_voxel_size ∧
    ((PerformanceController.new 60).update (1/60)).1.last_adjustment_direction
        = (PerformanceController.new 60).last_adjustment_direction ∧
    ((PerformanceController.new 60).update (1/60)).1.target_framerate
        = (PerformanceController.new 60).target_framerate ∧
    ((PerformanceController.new 60).update (1/60)).1.adjustment_rate
        = (PerformanceController.new 60).adjustment_rate ∧
    ((PerformanceController.new 60).update (1/60)).1.history_size
        = (PerformanceController.new 60).history_size :=
  update_none_no_change (PerformanceController.new 60) (1/60) (by with_unfolding_all rfl)

/-- C4: a quality-improving adjustment (`update` returns `some` and the
direction becomes `Decrease`) can only happen when the stable-frame counter
already exceeds 15 and the window-average FPS exceeds 1.2 times the target. -/
theorem decrease_gated (s : PerformanceController) (t v : ℚ)
    (hsome : (s.update t).2 = some v)
    (hdir : (s.update t).1.last_adjustment_direction = -1) :
    15 < s.stable_frames ∧
    s.target_framerate * (12/10)
      < 1 / PerformanceController.average_frame_time (s.push_history t) := by
  unfold PerformanceController.update at hsome hdir
  split_ifs at hsome hdir with h1 h2 h3 h4 <;>
    first
      | exact ⟨h4.2, h4.1⟩
      | simp at hsome
      | simp at hdir

/-- Witness for `decrease_gated`: a stable, well-above-target state. -/
theorem decrease_gated_witness :
    15 < (⟨60, 1/50, [1/100, 1/100, 1/100], 1/10, 10, 0, 16⟩ :
        PerformanceController).stable_frames ∧
    (⟨60, 1/50, [1/100, 1/100, 1/100], 1/10, 10, 0, 16⟩ :
        PerformanceController).target_framerate * (12/10)
      < 1 / PerformanceController.average_frame_time
          ((⟨60, 1/50, [1/100, 1/100, 1/100], 1/10, 10, 0, 16⟩ :
            PerformanceController).push_history (1/100)) :=
  decrease_gated ⟨60, 1/50, [1/100, 1/100, 1/100], 1/10, 10, 0, 16⟩ (1/100) (9/500)
    (by with_unfolding_all rfl) (by with_unfolding_all rfl)


theorem update_preserves_bounds (s : PerformanceController) (t : ℚ)
    (htgt : 10 ≤ s.target_framerate)
    (hlo : 5/1000 ≤ s.current_voxel_size) (hhi : s.current_voxel_size ≤ 5/100) :
    10 ≤ (s.update t).1.target_framerate ∧
    5/1000 ≤ (s.update t).1.current_voxel_size ∧
    (s.update t).1.current_voxel_size ≤ 5/100 := by
  have hcvs0 : (0:ℚ) ≤ s.current_voxel_size := le_trans (by norm_num) hlo
  unfold PerformanceController.update
  split_ifs with h1 h2 h3 h4
  · exact ⟨htgt, hlo, hhi⟩
  · refine ⟨htgt, ?_, ?_⟩
    · show 5/1000 ≤ s.emergency_size t
      unfold PerformanceController.emergency_size
      have hdpos : (0:ℚ) < max (1 / t) 10 := lt_of_lt_of_le (by norm_num) (le_max_right _ _)
      have hfps : 1 / t < s.target_framerate := by nlinarith
      have hmax : max (1 / t) 10 ≤ s.target_framerate := max_le (le_of_lt hfps) htgt
      have hm1 : (1:ℚ) ≤ s.target_framerate / max (1 / t) 10 := (one_le_div hdpos).2 hmax
      have hm : (1:ℚ) ≤ min (s.target_framerate / max (1 / t) 10) 2 := le_min hm1 (by norm_num)
      refine le_min ?_ (by norm_num)
      calc (5:ℚ)/1000 ≤ s.current_voxel_size := hlo
        _ = s.current_voxel_size * 1 := (mul_one _).symm
        _ ≤ s.current_voxel_size * min (s.target_framerate / max (1 / t) 10) 2 :=
            mul_le_mul_of_nonneg_left hm hcvs0
    · show s.emergency_size t ≤ 5/100
      exact min_le_right _ _
  · refine ⟨htgt, ?_, ?_⟩
    · show 5/1000 ≤ s.increase_size
      unfold PerformanceController.increase_size PerformanceController.adjustment_factor
      split_ifs <;> refine le_min ?_ (by norm_num) <;> nlinarith
    · show s.increase_size ≤ 5/100
      unfold PerformanceController.increase_size
      split_ifs <;> exact min_le_right _ _
  · refine ⟨htgt, ?_, ?_⟩
    · show 5/1000 ≤ s.decrease_size
      exact le_max_right _ _
    · show s.decrease_size ≤ 5/100
      unfold PerformanceController.decrease_size PerformanceController.adjustment_factor
      split_ifs <;> refine max_le ?_ (by norm_num) <;> nlinarith
  · exact ⟨htgt, hlo, hhi⟩


/-- C1 (amended): for a controller built with a target frame rate of at least
10 FPS, the step size stays within `[0.005, 0.05]` after any sequence of
`update` calls. -/
theorem step_size_bounds (target : ℚ) (ts : List ℚ) (htgt : 10 ≤ target) :
    5/1000 ≤ (runUpdates (PerformanceController.new target) ts).current_voxel_size ∧
    (runUpdates (PerformanceController.new target) ts).current_voxel_size ≤ 5/100 := by
  suffices hgen : ∀ (l : List ℚ) (s : PerformanceController),
      10 ≤ s.target_framerate → 5/1000 ≤ s.current_voxel_size →
      s.current_voxel_size ≤ 5/100 →
      5/1000 ≤ (runUpdates s l).current_voxel_size ∧
        (runUpdates s l).current_voxel_size ≤ 5/100 by
    exact hgen ts (PerformanceController.new target) htgt (by norm_num [PerformanceController.new]) (by norm_num [PerformanceController.new])
  intro l
  induction l with
  | nil => intro s _ hlo hhi; exact ⟨hlo, hhi⟩
  | cons t l ihl =>
      intro s htgt1 hlo hhi
      obtain ⟨h1, h2, h3⟩ := update_preserves_bounds s t htgt1 hlo hhi
      exact ihl (s.update t).1 h1 h2 h3

/-- Witness for `step_size_bounds` at target 60 with a concrete frame-time
sequence. -/
theorem step_size_bounds_witness :
    5/1000 ≤ (runUpdates (PerformanceController.new 60)
        [1/10, 1/10, 1/10, 1/10, 1/10]).current_voxel_size ∧
    (runUpdates (PerformanceController.new 60)
        [1/10, 1/10, 1/10, 1/10, 1/10]).current_voxel_size ≤ 5/100 :=
  step_size_bounds 60 [1/10, 1/10, 1/10, 1/10, 1/10] (by norm_num)

set_option maxRecDepth 40000 in
/-- C1 counterexample: with the valid (positive) target frame rate 9, sixteen
frames of 0.2 s drive the step size strictly below the claimed lower bound
0.005 — the emergency branch multiplies by `9 / max(5, 10) = 0.9 < 1` on every
call once the window is warm. -/
theorem step_size_bounds_cex :
    (0:ℚ) < 9 ∧
    (runUpdates (PerformanceController.new 9)
        (List.replicate 16 (1/5))).current_voxel_size < 5/1000 :=
  ⟨by norm_num, of_decide_eq_true (by with_unfolding_all rfl)⟩

/-- C3 (amended): with a warm window (3 or more stored frame times), a target
frame rate above 10, and a current step size that is positive and strictly
below the 0.05 cap, a frame time whose instantaneous FPS is below 0.95 times
the target makes that very `update` call return `some newStepSize` with
`newStepSize` strictly greater than the previous step size, regardless of
`stableFrameCount` and of the window average. -/
theorem emergency_responsive (s : PerformanceController) (t : ℚ)
    (hlen : 3 ≤ s.frame_time_history.length)
    (hfps : 1 / t < s.target_framerate * (95/100))
    (htgt : 10 < s.target_framerate)
    (hpos : 0 < s.current_voxel_size)
    (hcap : s.current_voxel_size < 5/100) :
    (s.update t).2 = some ((s.update t).1.current_voxel_size) ∧
    s.current_voxel_size < (s.update t).1.current_voxel_size := by
  have hlen3 : ¬ (s.push_history t).length < 3 := by
    unfold PerformanceController.push_history
    split <;> simp <;> omega
  unfold PerformanceController.update
  rw [if_neg hlen3, if_pos hfps]
  refine ⟨rfl, ?_⟩
  show s.current_voxel_size < s.emergency_size t
  unfold PerformanceController.emergency_size
  have hdpos : (0:ℚ) < max (1 / t) 10 := lt_of_lt_of_le (by norm_num) (le_max_right _ _)
  have hfps1 : 1 / t < s.target_framerate := by nlinarith
  have hmax : max (1 / t) 10 < s.target_framerate := max_lt hfps1 htgt
  have hm1 : (1:ℚ) < s.target_framerate / max (1 / t) 10 := (one_lt_div hdpos).2 hmax
  have hm : (1:ℚ) < min (s.target_framerate / max (1 / t) 10) 2 := lt_min hm1 (by norm_num)
  refine lt_min ?_ hcap
  nlinarith

/-- Witness for `emergency_responsive`: warm history at 60 FPS target, then a
0.1 s frame (10 FPS, 50% below target would be 30 FPS — this is even worse). -/
theorem emergency_responsive_witness :
    ((⟨60, 2/100, [1/60, 1/60, 1/60], 1/10, 10, 0, 0⟩ :
        PerformanceController).update (1/10)).2
      = some (((⟨60, 2/100, [1/60, 1/60, 1/60], 1/10, 10, 0, 0⟩ :
        PerformanceController).update (1/10)).1.current_voxel_size) ∧
    (⟨60, 2/100, [1/60, 1/60, 1/60], 1/10, 10, 0, 0⟩ :
        PerformanceController).current_voxel_size
      < ((⟨60, 2/100, [1/60, 1/60, 1/60], 1/10, 10, 0, 0⟩ :
        PerformanceController).update (1/10)).1.current_voxel_size :=
  emergency_responsive ⟨60, 2/100, [1/60, 1/60, 1/60], 1/10, 10, 0, 0⟩ (1/10)
    (by decide) (by norm_num) (by norm_num) (by norm_num) (by norm_num)

set_option maxRecDepth 40000 in
/-- C3 counterexample: at target 60, four frames of 0.1 s drive the step size
to the 0.05 cap; the fifth 0.1 s frame (instantaneous FPS 10, far below
0.95 × 60 = 57, with a window holding 4 ≥ 3 samples) still returns `some`,
but the returned step size equals the previous one instead of being strictly
greater. -/
theorem emergency_responsive_cex :
    3 ≤ (runUpdates (PerformanceController.new 60)
        (List.replicate 4 (1/10))).frame_time_history.length ∧
    (1:ℚ) / (1/10) < 60 * (95/100) ∧
    ((runUpdates (PerformanceController.new 60) (List.replicate 4 (1/10))).update (1/10)).2
      = some ((runUpdates (PerformanceController.new 60)
          (List.replicate 4 (1/10))).current_voxel_size) :=
  ⟨of_decide_eq_true (by with_unfolding_all rfl), by norm_num,
   by with_unfolding_all rfl⟩
